import Mathlib

/-!
Verification development for the ova2stemcell pipeline: a shallow embedding
of the delta patcher (rdiff.Patch), the archive extractor (ExtractOVA), the
cancellation wrappers (CancelReader/CancelWriter), the Config stage functions
(Stop, TempDir, WriteManifest, CreateStemcell, CreateImageFromOVA) and the
OVF document surgeon (RemoveItemBlock), together with theorems settling the
specification claims about them.

Bytes are modelled as Nat, file contents as lists of bytes or as String,
and the process file system as explicit state passed through each function.
-/

/-- A decoded rdiff delta operation: either a copy of a basis range
(at most one block in length) or a literal data insert.  This mirrors the
operation stream `proto.Reader.ReadOperations` delivers to `ApplyDelta`
in the external kardianos/rsync library consumed by `rdiff.Patch`. -/
inductive RdiffOp
  | copy (off len : Nat)
  | lit (data : List Nat)
deriving DecidableEq, Repr

/-- The decoded content of a delta stream, as produced by the decode
goroutine of `rdiff.Patch`: the header's block size (`none` models EOF
while reading the header), the operation list, an optional decode error
reported after the listed operations were delivered, and the optional
trailing target-checksum record (`none` models a stream that ends without
ever producing the record, in which case the `hashOps` channel closes and
the applier receives the zero operation whose `Data` is nil). -/
structure DeltaStream where
  header : Option Nat
  ops : List RdiffOp
  decodeErr : Option String
  checksum : Option (List Nat)
deriving DecidableEq, Repr

/-- Failures of `Patch`: `unexpectedEOF` is the truncated-header case
(io.ErrUnexpectedEOF), `applyFailed` an `ApplyDelta` error, `decodeFailed`
a `ReadOperations` error, `noTargetSumError` is `NoTargetSumError`
("Checksum request but missing target hash.") and `hashNoMatchError` is
`HashNoMatchError` ("Final data hash does not match."). -/
inductive PatchError
  | unexpectedEOF
  | applyFailed (msg : String)
  | decodeFailed (msg : String)
  | noTargetSumError
  | hashNoMatchError
deriving DecidableEq, Repr

/-- Applies the decoded operations in order against the basis, returning the
first apply error (if any) together with all bytes written to the target up
to that point: a copy operation reads `len` bytes of the basis starting at
`off` (valid only inside the basis and at most one block size), a literal
operation writes its bytes directly. -/
def applyOps (basis : List Nat) (blockSize : Nat) :
    List RdiffOp → List Nat → Option String × List Nat
  | [], written => (none, written)
  | .copy off len :: rest, written =>
      if len ≤ blockSize ∧ off + len ≤ basis.length then
        applyOps basis blockSize rest (written ++ (basis.drop off).take len)
      else (some "apply delta: copy range outside basis", written)
  | .lit data :: rest, written => applyOps basis blockSize rest (written ++ data)

/-- The outcome of one `Patch` invocation: the returned error (if any) and
the state of the target file when the call returns — `some content` means a
file with that content exists at the target path, `none` would mean the
file was deleted before returning. -/
structure PatchResult where
  res : Except PatchError Unit
  target : Option (List Nat)
deriving Repr

/-- Shallow embedding of `rdiff.Patch(basis, delta, newfile, checkFile)`.
`H` abstracts the md5 accumulation over all bytes written to the target
(crypto/md5 is external to the repository; only equality with the trailing
record matters to Patch).  `targetPreExists` records whether a file already
exists at the target path: the function creates the target with `os.Create`,
which succeeds either way and truncates an existing file, so the parameter
does not influence the outcome.  The target is created before the header is
read, and no branch of the function removes it. -/
def Patch (H : List Nat → List Nat) (basis : List Nat) (delta : DeltaStream)
    (checkFile : Bool) (targetPreExists : Bool) : PatchResult :=
  match delta.header with
  | none => ⟨.error .unexpectedEOF, some []⟩
  | some blockSize =>
    match applyOps basis blockSize delta.ops [] with
    | (some e, written) => ⟨.error (.applyFailed e), some written⟩
    | (none, written) =>
      match delta.decodeErr with
      | some e => ⟨.error (.decodeFailed e), some written⟩
      | none =>
        if checkFile = false then ⟨.ok (), some written⟩
        else
          match delta.checksum with
          | none => ⟨.error .noTargetSumError, some written⟩
          | some record =>
            if record = H written then ⟨.ok (), some written⟩
            else ⟨.error .hashNoMatchError, some written⟩

/-- C1: for every hash accumulator, basis and delta whose header and
operations decode and apply cleanly, Patch with checkFile=true fails with
NoTargetSumError when the trailing checksum record is absent, fails with
HashNoMatchError when the record is present but differs from the checksum
accumulated over all bytes written to the target, and with checkFile=false
the record (missing or incorrect) never causes a failure. -/
theorem c1_patch_checksum_verification (H : List Nat → List Nat)
    (basis : List Nat) (delta : DeltaStream) (bs : Nat) (pre : Bool)
    (hh : delta.header = some bs)
    (ha : (applyOps basis bs delta.ops []).1 = none)
    (hd : delta.decodeErr = none) :
    (delta.checksum = none →
      Patch H basis delta true pre =
        ⟨.error .noTargetSumError, some (applyOps basis bs delta.ops []).2⟩) ∧
    (∀ record, delta.checksum = some record →
      record ≠ H (applyOps basis bs delta.ops []).2 →
      Patch H basis delta true pre =
        ⟨.error .hashNoMatchError, some (applyOps basis bs delta.ops []).2⟩) ∧
    (Patch H basis delta false pre).res = .ok () := by
  cases hap : applyOps basis bs delta.ops [] with
  | mk err written =>
    rw [hap] at ha
    subst ha
    refine ⟨fun hc => ?_, fun record hc hne => ?_, ?_⟩
    · simp [Patch, hh, hap, hd, hc]
    · simp [Patch, hh, hap, hd, hc, hne]
    · simp [Patch, hh, hap, hd]

/-- Witness for C1 at concrete inputs: the identity accumulator, basis
[1,2,3,4], a delta of one literal insert [5] with block size 4; with the
checksum record absent Patch reports NoTargetSumError, with the wrong
record [9,9] it reports HashNoMatchError, and with checkFile=false the
wrong record does not cause a failure. -/
theorem c1_patch_checksum_verification_witness :
    Patch (fun l => l) [1, 2, 3, 4] ⟨some 4, [.lit [5]], none, none⟩ true false =
      ⟨.error .noTargetSumError, some [5]⟩ ∧
    Patch (fun l => l) [1, 2, 3, 4] ⟨some 4, [.lit [5]], none, some [9, 9]⟩ true false =
      ⟨.error .hashNoMatchError, some [5]⟩ ∧
    (Patch (fun l => l) [1, 2, 3, 4] ⟨some 4, [.lit [5]], none, some [9, 9]⟩ false false).res =
      .ok () :=
  ⟨(c1_patch_checksum_verification (fun l => l) [1, 2, 3, 4]
      ⟨some 4, [.lit [5]], none, none⟩ 4 false rfl rfl rfl).1 rfl,
   (c1_patch_checksum_verification (fun l => l) [1, 2, 3, 4]
      ⟨some 4, [.lit [5]], none, some [9, 9]⟩ 4 false rfl rfl rfl).2.1 [9, 9] rfl (by decide),
   (c1_patch_checksum_verification (fun l => l) [1, 2, 3, 4]
      ⟨some 4, [.lit [5]], none, some [9, 9]⟩ 4 false rfl rfl rfl).2.2⟩

/-- C4 counterexample: a concrete failing invocation (truncated delta
header) after which the target file still exists (with empty content), so
Patch does not delete the target it created before the call returns. -/
theorem c4_target_not_deleted_counterexample :
    (Patch (fun l => l) [] ⟨none, [], none, none⟩ true false).res =
      .error .unexpectedEOF ∧
    (Patch (fun l => l) [] ⟨none, [], none, none⟩ true false).target = some [] :=
  ⟨rfl, rfl⟩

/-- C4 amended: on every invocation — success and failure alike — the
target file created by Patch still exists when the call returns; no failure
path deletes it (removing it is left to the caller's workspace cleanup). -/
theorem c4_target_always_remains (H : List Nat → List Nat) (basis : List Nat)
    (delta : DeltaStream) (checkFile : Bool) (pre : Bool) :
    (Patch H basis delta checkFile pre).target ≠ none := by
  unfold Patch
  split
  · simp
  · split
    · simp
    · split
      · simp
      · split
        · simp
        · split
          · simp
          · split <;> simp

/-- C9 counterexample: a concrete Patch invocation whose target path
already holds a file (targetPreExists = true) that nevertheless succeeds:
the target is created with os.Create, which truncates the existing file
instead of failing, so the patched target is not created exclusively. -/
theorem c9_patch_not_exclusive_counterexample :
    (Patch (fun l => l) [1] ⟨some 4, [.lit [7]], none, none⟩ false true).res =
      .ok () :=
  rfl

/-- Strips trailing path separators, as the first loop of filepath.Base. -/
def stripTrailingSep (s : List Char) : List Char :=
  (s.reverse.dropWhile (fun c => c = '/')).reverse

/-- The portion after the last path separator, as in filepath.Base. -/
def afterLastSep (s : List Char) : List Char :=
  (s.reverse.takeWhile (fun c => c ≠ '/')).reverse

/-- filepath.Base on a slash-separated path: "" gives ".", trailing
separators are stripped, everything up to the last separator is dropped,
and the root gives "/". -/
def baseName (s : List Char) : List Char :=
  if s = [] then ['.']
  else
    let t := afterLastSep (stripTrailingSep s)
    if t = [] then ['/'] else t

/-- One archive entry as seen by ExtractOVA: the declared header name, the
result of h.FileInfo().Mode().IsRegular(), and the entry's byte content. -/
structure TarEntry where
  name : List Char
  regular : Bool
  content : List Nat
deriving DecidableEq, Repr

/-- The destination directory: the files it holds, in creation order. -/
abbrev Dir := List (List Char × List Nat)

/-- Errors of ExtractOVA: an entry naming a subdirectory, an entry whose
mode is not a regular file, an exclusive create (O_CREATE|O_EXCL) hitting
an existing name, and the archive exceeding the entry cap. -/
inductive ExtractError
  | subdirectory (name : List Char)
  | unsupportedType (name : List Char)
  | openFailed (name : List Char)
  | tooManyEntries
deriving DecidableEq, Repr

/-- The names present in the destination directory. -/
def dirNames (d : Dir) : List (List Char) := d.map Prod.fst

/-- The entry names of a list of archive entries. -/
def entryNames (l : List TarEntry) : List (List Char) := l.map TarEntry.name

/-- The directory contents an entry list extracts to: one file per entry,
named after the entry and holding the entry's bytes. -/
def asFiles (l : List TarEntry) : Dir := l.map (fun e => (e.name, e.content))

/-- An entry ExtractOVA accepts: flat name and regular-file mode. -/
def validEntry (e : TarEntry) : Prop := baseName e.name = e.name ∧ e.regular = true

instance (e : TarEntry) : Decidable (validEntry e) := by
  unfold validEntry
  infer_instance

/-- The extraction loop of ExtractOVA, translated from the source: `limit`
starts at 100 and the loop runs while it is nonnegative, decrementing after
each entry; reaching the end of the archive exits the loop, and afterwards
a nonpositive limit is reported as the too-many-files error.  The branch at
`limit = 0` on a present entry mirrors the iteration whose post-decrement
drives the Go loop counter to -1: the entry is validated and written before
the loop condition fails.  Each accepted entry is created exclusively —
an existing name is an open error. -/
def extractLoop : List TarEntry → Nat → Dir → Except ExtractError Unit × Dir
  | [], limit, dest =>
      if limit = 0 then (.error .tooManyEntries, dest) else (.ok (), dest)
  | e :: rest, limit, dest =>
      if baseName e.name ≠ e.name then (.error (.subdirectory e.name), dest)
      else if e.regular = false then (.error (.unsupportedType e.name), dest)
      else if e.name ∈ dirNames dest then (.error (.openFailed e.name), dest)
      else if limit = 0 then (.error .tooManyEntries, dest ++ [(e.name, e.content)])
      else extractLoop rest (limit - 1) (dest ++ [(e.name, e.content)])

/-- ExtractOVA over an already-decoded tar entry list: runs the extraction
loop with the hard cap of 100 against the destination directory. -/
def ExtractOVA (entries : List TarEntry) (dest : Dir) :
    Except ExtractError Unit × Dir :=
  extractLoop entries 100 dest

/-- entryNames distributes over cons. -/
theorem entryNames_cons (e : TarEntry) (l : List TarEntry) :
    entryNames (e :: l) = e.name :: entryNames l := rfl

/-- dirNames distributes over append. -/
theorem dirNames_append (a b : Dir) :
    dirNames (a ++ b) = dirNames a ++ dirNames b := List.map_append _ a b

/-- asFiles distributes over cons. -/
theorem asFiles_cons (e : TarEntry) (l : List TarEntry) :
    asFiles (e :: l) = (e.name, e.content) :: asFiles l := rfl

/-- The names of the files an entry list extracts to are the entry names. -/
theorem dirNames_asFiles (l : List TarEntry) :
    dirNames (asFiles l) = entryNames l := by
  simp [dirNames, asFiles, entryNames, List.map_map]

/-- Walking the loop over a prefix of valid, distinct, fresh entries writes
exactly those entries and continues on the remainder with the limit reduced
by the number of entries consumed (possible while the prefix is no longer
than the remaining limit). -/
theorem extractLoop_walk (good : List TarEntry) :
    ∀ (tail : List TarEntry) (limit : Nat) (dest : Dir),
      (∀ e ∈ good, validEntry e) → (entryNames good).Nodup →
      (∀ n ∈ entryNames good, n ∉ dirNames dest) → good.length ≤ limit →
      extractLoop (good ++ tail) limit dest =
        extractLoop tail (limit - good.length) (dest ++ asFiles good) := by
  induction good with
  | nil =>
    intro tail limit dest _ _ _ _
    simp [asFiles]
  | cons g gs ih =>
    intro tail limit dest hv hn hf hl
    obtain ⟨hb, hr⟩ := hv g (by simp)
    rw [entryNames_cons] at hn hf
    have hgnotin : g.name ∉ entryNames gs := (List.nodup_cons.mp hn).1
    have hgs_nodup : (entryNames gs).Nodup := (List.nodup_cons.mp hn).2
    have hgfresh : g.name ∉ dirNames dest := hf g.name (by simp)
    have hlim : ¬ (limit = 0) := by
      simp only [List.length_cons] at hl
      omega
    have step : extractLoop ((g :: gs) ++ tail) limit dest =
        extractLoop (gs ++ tail) (limit - 1) (dest ++ [(g.name, g.content)]) := by
      simp [extractLoop, hb, hr, hgfresh, hlim]
    rw [step, ih tail (limit - 1) (dest ++ [(g.name, g.content)]) ?_ ?_ ?_ ?_]
    · have harith : limit - 1 - gs.length = limit - (g :: gs).length := by
        simp only [List.length_cons]
        omega
      have hdest : (dest ++ [(g.name, g.content)]) ++ asFiles gs =
          dest ++ asFiles (g :: gs) := by
        rw [asFiles_cons, List.append_assoc]
        rfl
      rw [harith, hdest]
    · intro e he
      exact hv e (by simp [he])
    · exact hgs_nodup
    · intro n hng
      have h1 : n ∉ dirNames dest := hf n (List.mem_cons_of_mem _ hng)
      have h2 : n ≠ g.name := fun h => hgnotin (h ▸ hng)
      intro hmem
      rw [dirNames_append] at hmem
      rcases List.mem_append.mp hmem with h | h
      · exact h1 h
      · exact h2 (by simpa [dirNames] using h)
    · simp only [List.length_cons] at hl
      omega

/-- A valid archive of at most 99 flat regular entries with distinct names
extracts into an empty destination successfully, producing one file per
entry: the loop consumes all entries and exits with a positive limit. -/
theorem extract_success (entries : List TarEntry)
    (hv : ∀ e ∈ entries, validEntry e) (hn : (entryNames entries).Nodup)
    (hl : entries.length ≤ 99) :
    ExtractOVA entries [] = (.ok (), asFiles entries) := by
  have hw := extractLoop_walk entries [] 100 [] hv hn (by simp [dirNames]) (by omega)
  simp only [List.append_nil] at hw
  rw [ExtractOVA, hw]
  have hpos : ¬ (100 - entries.length = 0) := by omega
  simp [extractLoop, hpos]

/-- A valid archive of exactly 100 flat regular entries with distinct names
writes all 100 files and then fails with the too-many-entries error: the
loop reaches the end of the archive with the post-loop limit check already
at zero. -/
theorem extract_exactly_cap (entries : List TarEntry)
    (hv : ∀ e ∈ entries, validEntry e) (hn : (entryNames entries).Nodup)
    (hlen : entries.length = 100) :
    ExtractOVA entries [] = (.error .tooManyEntries, asFiles entries) := by
  have hw := extractLoop_walk entries [] 100 [] hv hn (by simp [dirNames]) (by omega)
  simp only [List.append_nil] at hw
  rw [ExtractOVA, hw, hlen]
  simp [extractLoop]

/-- A valid archive of 101 flat regular entries with distinct names writes
all 101 files — the 101st entry is validated and written during the
iteration that drives the loop counter negative — and then fails with the
too-many-entries error. -/
theorem extract_cap_plus_one (good : List TarEntry) (off : TarEntry)
    (hv : ∀ e ∈ good ++ [off], validEntry e)
    (hn : (entryNames (good ++ [off])).Nodup)
    (hlen : good.length = 100) :
    ExtractOVA (good ++ [off]) [] =
      (.error .tooManyEntries, asFiles (good ++ [off])) := by
  have hvg : ∀ e ∈ good, validEntry e := fun e he => hv e (by simp [he])
  have hsplit : entryNames (good ++ [off]) = entryNames good ++ [off.name] := by
    simp [entryNames]
  rw [hsplit, List.nodup_append] at hn
  have hng : (entryNames good).Nodup := hn.1
  have hoffnotin : off.name ∉ entryNames good := fun h => hn.2.2 h (by simp)
  have hw := extractLoop_walk good [off] 100 [] hvg hng (by simp [dirNames]) (by omega)
  rw [ExtractOVA, hw, hlen]
  obtain ⟨hb, hr⟩ := hv off (by simp)
  have hofffresh : off.name ∉ dirNames (asFiles good) := by
    rw [dirNames_asFiles]
    exact hoffnotin
  rw [List.nil_append]
  have hstep : extractLoop [off] (100 - 100) (asFiles good) =
      (.error .tooManyEntries, asFiles good ++ [(off.name, off.content)]) := by
    simp [extractLoop, hb, hr, hofffresh]
  rw [hstep]
  simp [asFiles]

/-- The concrete archive of n entries named by their decimal index, each a
regular flat file whose content is its index. -/
def mkEntries (n : Nat) : List TarEntry :=
  (List.range n).map (fun i => ⟨Nat.toDigits 10 i, true, [i]⟩)

/-- C3 counterexample: a valid flat archive of exactly N = 100 regular-file
entries with distinct names — within the documented cap — on which
extraction into an empty destination nevertheless fails (with the
too-many-entries error), refuting the claim that every such archive with
N at most 100 succeeds. -/
theorem c3_extract_at_cap_counterexample :
    (ExtractOVA (mkEntries 100) []).1 = .error .tooManyEntries := by
  have h := extract_exactly_cap (mkEntries 100) (by decide) (by decide) (by decide)
  rw [h]

/-- C3 amended: for every valid flat archive of N regular-file entries with
distinct names where N is at most 99 (not 100), extraction into an empty
destination succeeds and produces exactly the N files of the archive, with
matching names and byte-identical contents. -/
theorem c3_extract_success_amended (entries : List TarEntry)
    (hv : ∀ e ∈ entries, validEntry e) (hn : (entryNames entries).Nodup)
    (hl : entries.length ≤ 99) :
    ExtractOVA entries [] = (.ok (), asFiles entries) ∧
    (asFiles entries).length = entries.length ∧
    ∀ e ∈ entries, (e.name, e.content) ∈ asFiles entries :=
  ⟨extract_success entries hv hn hl, by simp [asFiles],
   fun _ he => List.mem_map_of_mem _ he⟩

/-- Witness for C3 amended at the concrete 99-entry archive. -/
theorem c3_extract_success_amended_witness :
    ExtractOVA (mkEntries 99) [] = (.ok (), asFiles (mkEntries 99)) ∧
    (asFiles (mkEntries 99)).length = (mkEntries 99).length ∧
    ∀ e ∈ mkEntries 99, (e.name, e.content) ∈ asFiles (mkEntries 99) :=
  c3_extract_success_amended (mkEntries 99) (by decide) (by decide) (by decide)

/-- C2 counterexample: the concrete valid archive of exactly 101 entries on
which extraction fails with the too-many-entries error only after writing
all 101 files — including the offending 101st entry — refuting the claim
that at most 100 files are written and that extraction stops before the
offending entry. -/
theorem c2_writes_offending_entry_counterexample :
    ExtractOVA (mkEntries 101) [] =
      (.error .tooManyEntries, asFiles (mkEntries 101)) ∧
    (asFiles (mkEntries 101)).length = 101 := by
  have hsplit : mkEntries 101 =
      mkEntries 100 ++ [⟨Nat.toDigits 10 100, true, [100]⟩] := by
    simp [mkEntries, List.range_succ]
  rw [hsplit]
  exact ⟨extract_cap_plus_one _ _ (by decide) (by decide) (by decide),
    by simp [asFiles, mkEntries]⟩

/-- C2 amended: for every archive of cap+1 = 101 valid flat regular-file
entries with distinct names, extraction into an empty destination fails
with the too-many-entries error, but only after writing all 101 entries
into the destination, the offending 101st included. -/
theorem c2_cap_plus_one_amended (good : List TarEntry) (off : TarEntry)
    (hv : ∀ e ∈ good ++ [off], validEntry e)
    (hn : (entryNames (good ++ [off])).Nodup)
    (hlen : good.length = 100) :
    ExtractOVA (good ++ [off]) [] =
      (.error .tooManyEntries, asFiles (good ++ [off])) ∧
    (asFiles (good ++ [off])).length = 101 :=
  ⟨extract_cap_plus_one good off hv hn hlen, by simp [asFiles, hlen]⟩

/-- Witness for C2 amended at the concrete 100+1 entry archive. -/
theorem c2_cap_plus_one_amended_witness :
    ExtractOVA (mkEntries 100 ++ [⟨Nat.toDigits 10 100, true, [100]⟩]) [] =
      (.error .tooManyEntries,
        asFiles (mkEntries 100 ++ [⟨Nat.toDigits 10 100, true, [100]⟩])) ∧
    (asFiles (mkEntries 100 ++ [⟨Nat.toDigits 10 100, true, [100]⟩])).length = 101 :=
  c2_cap_plus_one_amended (mkEntries 100) ⟨Nat.toDigits 10 100, true, [100]⟩
    (by decide) (by decide) (by decide)

/-- C7: after any prefix of accepted entries, an entry whose name has a
directory component fails extraction with the subdirectory error, and a
flat-named entry whose mode is not a regular file fails with the
unsupported-type error; in both cases no file is written for the rejected
entry and no further entries are processed — the destination holds exactly
the prior contents plus the accepted prefix. -/
theorem c7_rejects_subdir_and_irregular (good : List TarEntry) (e : TarEntry)
    (rest : List TarEntry) (dest : Dir)
    (hv : ∀ x ∈ good, validEntry x) (hn : (entryNames good).Nodup)
    (hf : ∀ n ∈ entryNames good, n ∉ dirNames dest)
    (hl : good.length ≤ 100) :
    (baseName e.name ≠ e.name →
      ExtractOVA (good ++ e :: rest) dest =
        (.error (.subdirectory e.name), dest ++ asFiles good)) ∧
    (baseName e.name = e.name → e.regular = false →
      ExtractOVA (good ++ e :: rest) dest =
        (.error (.unsupportedType e.name), dest ++ asFiles good)) := by
  have hw := extractLoop_walk good (e :: rest) 100 dest hv hn hf hl
  constructor
  · intro hb
    rw [ExtractOVA, hw]
    simp [extractLoop, hb]
  · intro hb hr
    rw [ExtractOVA, hw]
    simp [extractLoop, hb, hr]

/-- Witness for C7: a subdirectory entry "a/b" and a non-regular entry
"lnk", each the first entry of its archive, rejected with nothing written. -/
theorem c7_rejects_witness :
    ExtractOVA [⟨['a', '/', 'b'], true, [1]⟩] [] =
      (.error (.subdirectory ['a', '/', 'b']), []) ∧
    ExtractOVA [⟨['l', 'n', 'k'], false, [2]⟩] [] =
      (.error (.unsupportedType ['l', 'n', 'k']), []) := by
  constructor
  · have h := (c7_rejects_subdir_and_irregular [] ⟨['a', '/', 'b'], true, [1]⟩ [] []
      (by simp) (by simp [entryNames]) (by simp [entryNames]) (by simp)).1 (by decide)
    simpa [asFiles] using h
  · have h := (c7_rejects_subdir_and_irregular [] ⟨['l', 'n', 'k'], false, [2]⟩ [] []
      (by simp) (by simp [entryNames]) (by simp [entryNames]) (by simp)).2 (by decide) rfl
    simpa [asFiles] using h

/-- An I/O error as seen through the cancellation wrappers: the sentinel
ErrInterupt ("interupt") or any error of the wrapped stream. -/
inductive IOErr
  | interupt
  | other (msg : String)
deriving DecidableEq, Repr

/-- The (count, error) pair a Read or Write call returns. -/
structure IOResult where
  n : Nat
  err : Option IOErr
deriving DecidableEq, Repr

/-- Whether the one-shot stop signal has fired by call number i, given the
call number at which close(stop) happens (none: never closed).  Closing a
channel is permanent, so once fired the signal stays fired. -/
def signalFired (fireAt : Option Nat) (i : Nat) : Bool :=
  match fireAt with
  | none => false
  | some t => decide (t ≤ i)

/-- CancelReader.Read at call number i: the select statement takes the
stop case when the channel is closed, returning (0, ErrInterupt) without
touching the wrapped reader, and otherwise takes the default case,
delegating to the wrapped reader.  The Bool records whether the underlying
stream was invoked. -/
def CancelReaderRead (fireAt : Option Nat) (under : Nat → IOResult)
    (i : Nat) : IOResult × Bool :=
  if signalFired fireAt i then (⟨0, some .interupt⟩, false) else (under i, true)

/-- CancelWriter.Write at call number i, with the same select shape as
CancelReader.Read. -/
def CancelWriterWrite (fireAt : Option Nat) (under : Nat → IOResult)
    (i : Nat) : IOResult × Bool :=
  if signalFired fireAt i then (⟨0, some .interupt⟩, false) else (under i, true)

/-- Once fired, the signal is fired at every later call. -/
theorem signalFired_mono (fireAt : Option Nat) (i j : Nat)
    (hij : i ≤ j) (h : signalFired fireAt i = true) :
    signalFired fireAt j = true := by
  cases fireAt with
  | none => simp [signalFired] at h
  | some t =>
    simp [signalFired] at h ⊢
    omega

/-- C6: once the stop signal has fired, every subsequent Read or Write call
on a wrapped stream returns (0, ErrInterupt) without invoking the
underlying stream; while the signal has not fired, each call delegates to
the underlying stream and returns its result. -/
theorem c6_cancel_wrappers (fireAt : Option Nat)
    (underR underW : Nat → IOResult) :
    (∀ i j, signalFired fireAt i = true → i ≤ j →
      CancelReaderRead fireAt underR j = (⟨0, some .interupt⟩, false) ∧
      CancelWriterWrite fireAt underW j = (⟨0, some .interupt⟩, false)) ∧
    (∀ i, signalFired fireAt i = false →
      CancelReaderRead fireAt underR i = (underR i, true) ∧
      CancelWriterWrite fireAt underW i = (underW i, true)) := by
  constructor
  · intro i j hi hij
    have hj := signalFired_mono fireAt i j hij hi
    simp [CancelReaderRead, CancelWriterWrite, hj]
  · intro i hi
    simp [CancelReaderRead, CancelWriterWrite, hi]

/-- Witness for C6: the signal fires at call 1; call 3 is interrupted on
both wrappers without reaching the underlying streams, while call 0
delegates. -/
theorem c6_cancel_wrappers_witness :
    (CancelReaderRead (some 1) (fun i => ⟨i + 8, none⟩) 3 =
      (⟨0, some .interupt⟩, false) ∧
     CancelWriterWrite (some 1) (fun i => ⟨i + 9, none⟩) 3 =
      (⟨0, some .interupt⟩, false)) ∧
    (CancelReaderRead (some 1) (fun i => ⟨i + 8, none⟩) 0 =
      (⟨8, none⟩, true) ∧
     CancelWriterWrite (some 1) (fun i => ⟨i + 9, none⟩) 0 =
      (⟨9, none⟩, true)) :=
  ⟨(c6_cancel_wrappers (some 1) (fun i => ⟨i + 8, none⟩)
      (fun i => ⟨i + 9, none⟩)).1 1 3 (by decide) (by decide),
   (c6_cancel_wrappers (some 1) (fun i => ⟨i + 8, none⟩)
      (fun i => ⟨i + 9, none⟩)).2 0 (by decide)⟩

/-- The process file system visible to a Config run: regular files with
their contents, and the set of existing directories. -/
structure Sys where
  files : List (String × String)
  dirs : List String
deriving DecidableEq, Repr

/-- The pipeline configuration: output paths recorded as stages complete,
the lazily created temp directory name ("" while unset), and whether the
stop channel has been closed. -/
structure Config where
  image : String
  stemcell : String
  manifest : String
  sha1sum : String
  tmpdir : String
  stopClosed : Bool
deriving DecidableEq, Repr

/-- Joins a directory and a file name, as filepath.Join does for the names
used by this program. -/
def pathJoin (dir name : String) : String := dir ++ "/" ++ name

/-- The published stemcell file name for a version. -/
def StemcellFilename (version : String) : String :=
  "bosh-stemcell-" ++ version ++ "-vsphere-esxi-windows2012R2-go_agent.tgz"

/-- Looks a file up by path. -/
def lookupFile (s : Sys) (path : String) : Option String :=
  (s.files.find? (fun p => p.1 == path)).map Prod.snd

/-- os.OpenFile with O_CREATE|O_EXCL|O_WRONLY followed by writing the full
content: fails if the path already exists, otherwise records the new file. -/
def openExclSys (s : Sys) (path content : String) : Except String Sys :=
  if path ∈ s.files.map Prod.fst then .error ("open " ++ path)
  else .ok { s with files := s.files ++ [(path, content)] }

/-- os.Remove on a file path. -/
def removeFile (s : Sys) (path : String) : Sys :=
  { s with files := s.files.filter (fun p => !(p.1 == path)) }

/-- Replaces the content of an existing file. -/
def setFile (s : Sys) (path content : String) : Sys :=
  { s with files := s.files.map (fun p => if p.1 == path then (path, content) else p) }

/-- Config.Cleanup: if a temp directory was created, os.RemoveAll deletes
it together with every file below it; otherwise nothing happens. -/
def Config.Cleanup (c : Config) (s : Sys) : Sys :=
  if c.tmpdir = "" then s
  else
    { files := s.files.filter (fun p => !((c.tmpdir ++ "/").isPrefixOf p.1)),
      dirs := s.dirs.filter
        (fun d => !(d == c.tmpdir) && !((c.tmpdir ++ "/").isPrefixOf d)) }

/-- The result of Config.Stop: either the signal was raised normally, or
the call panicked (close of an already-closed channel); the deferred
Cleanup runs on both paths before the call unwinds. -/
inductive StopResult
  | stopped (c : Config) (s : Sys)
  | panicked (msg : String) (c : Config) (s : Sys)
deriving DecidableEq, Repr

/-- Config.Stop: defers Cleanup and then executes close(c.stop).  If the
channel is already closed the close panics; the deferred Cleanup still runs
while the panic unwinds. -/
def Config.Stop (c : Config) (s : Sys) : StopResult :=
  if c.stopClosed then
    .panicked "close of closed channel" c (c.Cleanup s)
  else
    .stopped { c with stopClosed := true } (c.Cleanup s)

/-- C8 counterexample: a concrete Config whose signal has already been
raised, on which a second Stop call panics (close of a closed channel)
instead of being safe, refuting idempotence of Stop. -/
theorem c8_stop_second_call_panics_counterexample :
    Config.Stop ⟨"", "", "", "", "", true⟩ ⟨[], []⟩ =
      .panicked "close of closed channel" ⟨"", "", "", "", "", true⟩ ⟨[], []⟩ :=
  rfl

/-- C8 amended: Config.Stop is not idempotent.  The first call closes the
stop channel, leaving the signal permanently raised, and runs Cleanup; a
call made while the signal is already raised panics with "close of closed
channel" (running the deferred Cleanup while unwinding). -/
theorem c8_stop_amended (c : Config) (s : Sys) :
    (c.stopClosed = false →
      Config.Stop c s = .stopped { c with stopClosed := true } (c.Cleanup s)) ∧
    (c.stopClosed = true →
      Config.Stop c s = .panicked "close of closed channel" c (c.Cleanup s)) := by
  constructor
  · intro h
    simp [Config.Stop, h]
  · intro h
    simp [Config.Stop, h]

/-- Witness for C8 amended: a first Stop raises the signal; a second Stop
on the resulting Config panics. -/
theorem c8_stop_amended_witness :
    Config.Stop ⟨"i", "", "", "", "", false⟩ ⟨[], []⟩ =
      .stopped ⟨"i", "", "", "", "", true⟩ ⟨[], []⟩ ∧
    Config.Stop ⟨"i", "", "", "", "", true⟩ ⟨[("x", "y")], []⟩ =
      .panicked "close of closed channel" ⟨"i", "", "", "", "", true⟩
        ⟨[("x", "y")], []⟩ :=
  ⟨(c8_stop_amended ⟨"i", "", "", "", "", false⟩ ⟨[], []⟩).1 rfl,
   (c8_stop_amended ⟨"i", "", "", "", "", true⟩ ⟨[("x", "y")], []⟩).2 rfl⟩

/-- Config.TempDir: returns the existing temp directory if one was already
created and still exists (an error if it was removed externally), otherwise
creates a fresh directory — `fresh` stands for the unique name
ioutil.TempDir picks — and records it in the Config. -/
def Config.TempDir (fresh : String) (c : Config) (s : Sys) :
    Except String (String × Config × Sys) :=
  if c.tmpdir ≠ "" then
    if c.tmpdir ∈ s.dirs then .ok (c.tmpdir, c, s)
    else .error ("opening temp directory: " ++ c.tmpdir)
  else .ok (fresh, { c with tmpdir := fresh }, { s with dirs := fresh :: s.dirs })

/-- The outcome of a Config stage: a panic (programming error), an error
return, or completion; each carries the Config and file-system state at the
moment the stage returns. -/
inductive StageResult
  | panicked (msg : String) (c : Config) (s : Sys)
  | failed (msg : String) (c : Config) (s : Sys)
  | completed (c : Config) (s : Sys)
deriving DecidableEq, Repr

/-- The stemcell.MF manifest text emitted for a version and checksum. -/
def stemcellMF (version sha1sum : String) : String :=
  "---\nname: bosh-vsphere-esxi-windows-2012R2-go_agent\nversion: " ++ version ++
  "\nsha1: " ++ sha1sum ++
  "\noperating_system: windows2012R2\ncloud_properties:\n  infrastructure: vsphere\n  hypervisor: esxi\n"

/-- Config.WriteManifest: panics if a manifest was already created (before
touching the temp directory or any file), otherwise obtains the temp
directory, records the manifest path, creates stemcell.MF exclusively and
writes the formatted manifest into it. -/
def Config.WriteManifest (fresh version : String) (c : Config) (s : Sys) :
    StageResult :=
  if c.manifest ≠ "" then
    .panicked ("already created manifest: " ++ c.manifest) c s
  else
    match Config.TempDir fresh c s with
    | .error e => .failed e c s
    | .ok (dir, c1, s1) =>
      let mpath := pathJoin dir "stemcell.MF"
      let c2 := { c1 with manifest := mpath }
      match openExclSys s1 mpath (stemcellMF version c1.sha1sum) with
      | .error e => .failed e c2 s1
      | .ok s2 => .completed c2 s2

/-- Config.CreateStemcell: panics on an empty manifest or image field
(programming errors), otherwise obtains the temp directory, records the
stemcell path, creates the stemcell file exclusively, then streams the
image and manifest files into the gzip'd tar archive — `pack` stands for
that archive encoding; a read failure removes the partial stemcell file. -/
def Config.CreateStemcell (pack : String → String → String)
    (fresh version : String) (c : Config) (s : Sys) : StageResult :=
  if c.manifest = "" then .panicked "CreateStemcell: empty manifest" c s
  else if c.image = "" then .panicked "CreateStemcell: empty image" c s
  else
    match Config.TempDir fresh c s with
    | .error e => .failed e c s
    | .ok (dir, c1, s1) =>
      let spath := pathJoin dir (StemcellFilename version)
      let c2 := { c1 with stemcell := spath }
      match openExclSys s1 spath "" with
      | .error e => .failed e c2 s1
      | .ok s2 =>
        match lookupFile s2 c2.image with
        | none => .failed ("creating stemcell: open " ++ c2.image) c2 (removeFile s2 spath)
        | some img =>
          match lookupFile s2 c2.manifest with
          | none => .failed ("creating stemcell: open " ++ c2.manifest) c2 (removeFile s2 spath)
          | some mf => .completed c2 (setFile s2 spath (pack img mf))

/-- Config.CreateImageFromOVA: opens the ova, obtains the temp directory,
records the image path, creates the image file exclusively and writes the
gzip-compressed ova bytes into it, recording their sha1 — `gz` and `sha`
stand for the gzip encoding and the sha1 hex digest. -/
def Config.CreateImageFromOVA (gz sha : String → String)
    (fresh ovaName : String) (c : Config) (s : Sys) : StageResult :=
  match lookupFile s ovaName with
  | none => .failed ("opening ova file: " ++ ovaName) c s
  | some ovaContent =>
    match Config.TempDir fresh c s with
    | .error e => .failed e c s
    | .ok (dir, c1, s1) =>
      let ipath := pathJoin dir "image"
      let c2 := { c1 with image := ipath }
      match openExclSys s1 ipath (gz ovaContent) with
      | .error e => .failed e c2 s1
      | .ok s2 => .completed { c2 with sha1sum := sha ovaContent } s2

/-- C10: WriteManifest can run at most once per Config: whenever the
Manifest field is already set, the call panics immediately, before the temp
directory is touched and before any file is created or written — the
Config and the file system are exactly as they were at entry, so a run can
never produce two manifests or overwrite one. -/
theorem c10_write_manifest_at_most_once (fresh version : String)
    (c : Config) (s : Sys) (h : c.manifest ≠ "") :
    Config.WriteManifest fresh version c s =
      .panicked ("already created manifest: " ++ c.manifest) c s := by
  simp [Config.WriteManifest, h]

/-- Witness for C10 at a Config whose manifest is already set. -/
theorem c10_write_manifest_at_most_once_witness :
    Config.WriteManifest "t" "1.2" ⟨"", "", "/t/stemcell.MF", "", "/t", false⟩
      ⟨[("/t/stemcell.MF", "m")], ["/t"]⟩ =
      .panicked "already created manifest: /t/stemcell.MF"
        ⟨"", "", "/t/stemcell.MF", "", "/t", false⟩
        ⟨[("/t/stemcell.MF", "m")], ["/t"]⟩ :=
  c10_write_manifest_at_most_once "t" "1.2"
    ⟨"", "", "/t/stemcell.MF", "", "/t", false⟩
    ⟨[("/t/stemcell.MF", "m")], ["/t"]⟩ (by decide)

/-- C9 amended: every output file except the patched target is created
exclusively — an extracted archive entry, the manifest, the stemcell
archive and the image each fail their creating operation when a file
already exists at the destination path, leaving the file system unchanged —
while the patched target is created with os.Create, which truncates an
existing file: the outcome of Patch is the same whether or not a file
already exists at the target path. -/
theorem c9_exclusive_creation_amended :
    (∀ (e : TarEntry) (rest : List TarEntry) (dest : Dir),
      baseName e.name = e.name → e.regular = true → e.name ∈ dirNames dest →
      ExtractOVA (e :: rest) dest = (.error (.openFailed e.name), dest)) ∧
    (∀ (fresh version : String) (c : Config) (s : Sys),
      c.manifest = "" → c.tmpdir ≠ "" → c.tmpdir ∈ s.dirs →
      pathJoin c.tmpdir "stemcell.MF" ∈ s.files.map Prod.fst →
      Config.WriteManifest fresh version c s =
        .failed ("open " ++ pathJoin c.tmpdir "stemcell.MF")
          { c with manifest := pathJoin c.tmpdir "stemcell.MF" } s) ∧
    (∀ (pack : String → String → String) (fresh version : String)
      (c : Config) (s : Sys),
      c.manifest ≠ "" → c.image ≠ "" → c.tmpdir ≠ "" → c.tmpdir ∈ s.dirs →
      pathJoin c.tmpdir (StemcellFilename version) ∈ s.files.map Prod.fst →
      Config.CreateStemcell pack fresh version c s =
        .failed ("open " ++ pathJoin c.tmpdir (StemcellFilename version))
          { c with stemcell := pathJoin c.tmpdir (StemcellFilename version) } s) ∧
    (∀ (gz sha : String → String) (fresh ovaName content : String)
      (c : Config) (s : Sys),
      lookupFile s ovaName = some content → c.tmpdir ≠ "" → c.tmpdir ∈ s.dirs →
      pathJoin c.tmpdir "image" ∈ s.files.map Prod.fst →
      Config.CreateImageFromOVA gz sha fresh ovaName c s =
        .failed ("open " ++ pathJoin c.tmpdir "image")
          { c with image := pathJoin c.tmpdir "image" } s) ∧
    (∀ (H : List Nat → List Nat) (basis : List Nat) (delta : DeltaStream)
      (checkFile : Bool),
      Patch H basis delta checkFile true = Patch H basis delta checkFile false) := by
  refine ⟨?_, ?_, ?_, ?_, ?_⟩
  · intro e rest dest hb hr hmem
    simp [ExtractOVA, extractLoop, hb, hr, hmem]
  · intro fresh version c s hm ht hd hex
    simp [Config.WriteManifest, Config.TempDir, openExclSys, hm, ht, hd, hex]
  · intro pack fresh version c s hm hi ht hd hex
    simp [Config.CreateStemcell, Config.TempDir, openExclSys, hm, hi, ht, hd, hex]
  · intro gz sha fresh ovaName content c s hova ht hd hex
    simp [Config.CreateImageFromOVA, Config.TempDir, openExclSys, hova, ht, hd, hex]
  · intro H basis delta checkFile
    rfl

/-- Witness for C9 amended at concrete states in which each destination
path already exists. -/
theorem c9_exclusive_creation_amended_witness :
    ExtractOVA [⟨['f'], true, [7]⟩] [(['f'], [0])] =
      (.error (.openFailed ['f']), [(['f'], [0])]) ∧
    Config.WriteManifest "t" "1.2" ⟨"", "", "", "", "/t", false⟩
      ⟨[("/t/stemcell.MF", "old")], ["/t"]⟩ =
      .failed "open /t/stemcell.MF" ⟨"", "", "/t/stemcell.MF", "", "/t", false⟩
        ⟨[("/t/stemcell.MF", "old")], ["/t"]⟩ ∧
    Config.CreateStemcell (fun a b => a ++ b) "t" "1.2"
      ⟨"/t/image", "", "/t/stemcell.MF", "", "/t", false⟩
      ⟨[("/t/" ++ StemcellFilename "1.2", "old")], ["/t"]⟩ =
      .failed ("open /t/" ++ StemcellFilename "1.2")
        ⟨"/t/image", "/t/" ++ StemcellFilename "1.2", "/t/stemcell.MF", "", "/t", false⟩
        ⟨[("/t/" ++ StemcellFilename "1.2", "old")], ["/t"]⟩ ∧
    Config.CreateImageFromOVA (fun a => a) (fun a => a) "t" "vm.ova"
      ⟨"", "", "", "", "/t", false⟩
      ⟨[("vm.ova", "ova"), ("/t/image", "old")], ["/t"]⟩ =
      .failed "open /t/image" ⟨"/t/image", "", "", "", "/t", false⟩
        ⟨[("vm.ova", "ova"), ("/t/image", "old")], ["/t"]⟩ ∧
    Patch (fun l => l) [3] ⟨some 2, [.lit [4]], none, none⟩ false true =
      Patch (fun l => l) [3] ⟨some 2, [.lit [4]], none, none⟩ false false := by
  refine ⟨?_, ?_, ?_, ?_, ?_⟩
  · exact c9_exclusive_creation_amended.1 ⟨['f'], true, [7]⟩ [] [(['f'], [0])]
      (by decide) rfl (by decide)
  · have h := c9_exclusive_creation_amended.2.1 "t" "1.2"
      ⟨"", "", "", "", "/t", false⟩ ⟨[("/t/stemcell.MF", "old")], ["/t"]⟩
      rfl (by decide) (by decide) (by decide)
    simpa [pathJoin] using h
  · have h := c9_exclusive_creation_amended.2.2.1 (fun a b => a ++ b) "t" "1.2"
      ⟨"/t/image", "", "/t/stemcell.MF", "", "/t", false⟩
      ⟨[("/t/" ++ StemcellFilename "1.2", "old")], ["/t"]⟩
      (by decide) (by decide) (by decide) (by decide) (by decide)
    simpa [pathJoin] using h
  · have h := c9_exclusive_creation_amended.2.2.2.1 (fun a => a) (fun a => a)
      "t" "vm.ova" "ova" ⟨"", "", "", "", "/t", false⟩
      ⟨[("vm.ova", "ova"), ("/t/image", "old")], ["/t"]⟩
      (by decide) (by decide) (by decide) (by decide)
    simpa [pathJoin] using h
  · exact c9_exclusive_creation_amended.2.2.2.2 (fun l => l) [3]
      ⟨some 2, [.lit [4]], none, none⟩ false

/-- A piece of a hardware-description document: raw text outside any device
block, or one device block carrying its identifier and its full delimited
span (opening delimiter through closing delimiter, inclusive). -/
inductive Segment
  | text (s : List Char)
  | block (id : List Char) (s : List Char)
deriving DecidableEq, Repr

/-- Serializes a structured document back to its byte string: the
concatenation of every segment's span. -/
def render : List Segment → List Char
  | [] => []
  | .text s :: rest => s ++ render rest
  | .block _ s :: rest => s ++ render rest

/-- Whether a segment is a device block whose identifier matches blockId:
matching is structural, on block boundaries and the block's own identifier,
never on text segments. -/
def isMatch (blockId : List Char) : Segment → Bool
  | .text _ => false
  | .block id _ => id = blockId

/-- Removes the first block matching blockId, keeping everything else. -/
def removeOnce (blockId : List Char) : List Segment → List Segment
  | [] => []
  | seg :: rest =>
      if isMatch blockId seg then rest else seg :: removeOnce blockId rest

/-- The two error values of the document surgeon: ErrElementNotFound and
ErrMultipleElementsFound. -/
inductive SurgeryError
  | elementNotFound
  | multipleElementsFound
deriving DecidableEq, Repr

/-- Modelled from the spec: the implementation of RemoveItemBlock is not
part of the available sources (only its test is), so this follows §4.3 of
the specification — locate every block whose identifier matches blockId;
zero matches is ElementNotFound, more than one is MultipleElementsFound,
and exactly one match returns the document with that block's full delimited
span removed and every byte outside the span unchanged.  The input string
is the rendering of the structured document and the output string is the
rendering of the returned document. -/
def RemoveItemBlock (doc : List Segment) (blockId : List Char) :
    Except SurgeryError (List Segment) :=
  if (doc.filter (isMatch blockId)).length = 0 then .error .elementNotFound
  else if (doc.filter (isMatch blockId)).length = 1 then
    .ok (removeOnce blockId doc)
  else .error .multipleElementsFound

/-- render distributes over append. -/
theorem render_append (a b : List Segment) :
    render (a ++ b) = render a ++ render b := by
  induction a with
  | nil => simp [render]
  | cons seg rest ih => cases seg <;> simp [render, ih]

/-- removeOnce passes over a matchless prefix untouched. -/
theorem removeOnce_no_match (blockId : List Char) (pre : List Segment)
    (h : pre.filter (isMatch blockId) = []) (tail : List Segment) :
    removeOnce blockId (pre ++ tail) = pre ++ removeOnce blockId tail := by
  induction pre with
  | nil => simp
  | cons seg rest ih =>
    rw [List.filter_cons] at h
    by_cases hm : isMatch blockId seg
    · simp [hm] at h
    · simp only [hm, Bool.false_eq_true, if_neg, reduceIte] at h
      simp [removeOnce, hm, ih h]

/-- C5: block removal returns ElementNotFound when no block matches the
identifier and MultipleElementsFound when two or more match; when exactly
one matches (a decomposition doc = pre ++ block ++ suf with no match in
pre or suf), it returns the document with only that block's full delimited
span removed — the rendering drops exactly the span, with every byte
before and after it unchanged — and removing the same identifier from the
result yields ElementNotFound. -/
theorem c5_remove_item_block (doc : List Segment) (blockId : List Char) :
    ((doc.filter (isMatch blockId)).length = 0 →
      RemoveItemBlock doc blockId = .error .elementNotFound) ∧
    (2 ≤ (doc.filter (isMatch blockId)).length →
      RemoveItemBlock doc blockId = .error .multipleElementsFound) ∧
    (∀ (pre : List Segment) (id s : List Char) (suf : List Segment),
      doc = pre ++ Segment.block id s :: suf →
      isMatch blockId (Segment.block id s) = true →
      pre.filter (isMatch blockId) = [] → suf.filter (isMatch blockId) = [] →
      RemoveItemBlock doc blockId = .ok (pre ++ suf) ∧
      render doc = render pre ++ s ++ render suf ∧
      render (pre ++ suf) = render pre ++ render suf ∧
      RemoveItemBlock (pre ++ suf) blockId = .error .elementNotFound) := by
  refine ⟨fun h0 => ?_, fun h2 => ?_, ?_⟩
  · simp [RemoveItemBlock, h0]
  · have hne0 : ¬ ((doc.filter (isMatch blockId)).length = 0) := by omega
    have hne1 : ¬ ((doc.filter (isMatch blockId)).length = 1) := by omega
    simp [RemoveItemBlock, hne0, hne1]
  · intro pre id s suf hdoc hm hpre hsuf
    have hfilter : doc.filter (isMatch blockId) = [Segment.block id s] := by
      rw [hdoc, List.filter_append, List.filter_cons, hpre, hsuf]
      simp [hm]
    have hcount : (doc.filter (isMatch blockId)).length = 1 := by
      rw [hfilter]
      rfl
    have hremove : removeOnce blockId doc = pre ++ suf := by
      rw [hdoc, removeOnce_no_match blockId pre hpre, removeOnce, if_pos hm]
    have hres : RemoveItemBlock doc blockId = .ok (pre ++ suf) := by
      simp [RemoveItemBlock, hcount, hremove]
    have hsecond : RemoveItemBlock (pre ++ suf) blockId =
        .error .elementNotFound := by
      have : (pre ++ suf).filter (isMatch blockId) = [] := by
        rw [List.filter_append, hpre, hsuf]
        rfl
      simp [RemoveItemBlock, this]
    refine ⟨hres, ?_, render_append pre suf, hsecond⟩
    rw [hdoc, render_append]
    have : render (Segment.block id s :: suf) = s ++ render suf := rfl
    rw [this, List.append_assoc]

/-- Witness for C5: a document of one ethernet0 block between two text
spans; removal keeps the surrounding text byte-for-byte and a second
removal of the same identifier reports ElementNotFound.  A document with
no matching block and one with two matching blocks exercise the two error
cases through the same theorem. -/
theorem c5_remove_item_block_witness :
    RemoveItemBlock [Segment.text "<a>".data] "ethernet0".data =
      .error .elementNotFound ∧
    RemoveItemBlock
      [Segment.block "ethernet0".data "<i>e0</i>".data,
       Segment.block "ethernet0".data "<i>e0b</i>".data] "ethernet0".data =
      .error .multipleElementsFound ∧
    (RemoveItemBlock
      [Segment.text "<a>\n".data,
       Segment.block "ethernet0".data "<i>e0</i>".data,
       Segment.text "\n</a>".data] "ethernet0".data =
      .ok ([Segment.text "<a>\n".data] ++ [Segment.text "\n</a>".data]) ∧
     render [Segment.text "<a>\n".data,
       Segment.block "ethernet0".data "<i>e0</i>".data,
       Segment.text "\n</a>".data] =
      render [Segment.text "<a>\n".data] ++ "<i>e0</i>".data ++
        render [Segment.text "\n</a>".data] ∧
     render ([Segment.text "<a>\n".data] ++ [Segment.text "\n</a>".data]) =
      render [Segment.text "<a>\n".data] ++ render [Segment.text "\n</a>".data] ∧
     RemoveItemBlock ([Segment.text "<a>\n".data] ++ [Segment.text "\n</a>".data])
       "ethernet0".data = .error .elementNotFound) :=
  ⟨(c5_remove_item_block [Segment.text "<a>".data] "ethernet0".data).1 (by decide),
   (c5_remove_item_block
      [Segment.block "ethernet0".data "<i>e0</i>".data,
       Segment.block "ethernet0".data "<i>e0b</i>".data] "ethernet0".data).2.1
     (by decide),
   (c5_remove_item_block
      [Segment.text "<a>\n".data,
       Segment.block "ethernet0".data "<i>e0</i>".data,
       Segment.text "\n</a>".data] "ethernet0".data).2.2
     [Segment.text "<a>\n".data] "ethernet0".data "<i>e0</i>".data
     [Segment.text "\n</a>".data] rfl (by decide) (by decide) (by decide)⟩

/-- Witness for C4 amended at a concrete failing invocation (a decode
error after one applied operation): the target file still exists. -/
theorem c4_target_always_remains_witness :
    (Patch (fun l => l) [2] ⟨some 1, [.lit [3]], some "boom", none⟩ true false).target ≠
      none :=
  c4_target_always_remains (fun l => l) [2] ⟨some 1, [.lit [3]], some "boom", none⟩
    true false
